import Mathlib

/-!
Verification of the File_events repository (src/main.go) against its
natural-language specification.

The development shallowly embeds the program:

* `FileData` is the record type persisted to the ledger (main.go lines 15-18).
* The JSON document layer (`Json`, `encodeFileData`, `encodeLedger`,
  `decodeFileData`, `decodeRecords`, `decodeLedger`) models what
  `json.MarshalIndent` / `json.Unmarshal` do with a `[]FileData` value at the
  level of parsed JSON documents; `encoding/json` is an external library of
  the Go standard distribution, so its text layer is modelled separately by
  an executable byte-level printer (`serializeGo`, the exact
  `MarshalIndent(v, "", "  ")` layout) and reader (`parseLedgerBytes`).
* `processFile` embeds the function of the same name (main.go lines 94-134)
  at the document level; `processFileBytes` embeds the same function at the
  byte level together with the failure behaviour of `ioutil.WriteFile`
  (open with O_TRUNC, then write: a write that stops after k bytes leaves
  the first k bytes of the new data in place).
* `CStep` is the interleaving semantics of several workers running
  `processFile` against the shared storage location (the code takes no lock:
  the read of the current ledger and the write of the full ledger of two
  workers may interleave freely).
* `ShutState`/`ShutStep` embed the shutdown structure of `main`
  (lines 59-92): workers end their `for path := range fileChan` loop only
  once the channel is closed and drained, while `main` executes
  `close(fileChan)` only after `wg.Wait()` returns.
* `FsEvent`, `dispatchMatch`, `mkFileChan` and `DispStep` embed the
  dispatcher goroutine (lines 70-87) and the bounded channel of line 55.
-/

/-- `FileData` (main.go lines 15-18): `Path string`, `Size int64`.
`int64` is modelled as `Int`; no arithmetic is performed on sizes. -/
structure FileData where
  path : String
  size : Int
deriving DecidableEq, Repr

/-- `Config` (main.go lines 20-24). `ConcurrencyLevel` is a `Nat` here; the
spec constrains it to a positive integer. -/
structure Config where
  TargetDirectory : String
  StorageLocation : String
  ConcurrencyLevel : Nat
deriving DecidableEq, Repr

/-- Outcome of an `os.Stat` call, as the environment's answer. The code only
branches on `err == nil` versus `err != nil`; the distinct error
constructors record which kind of failure the environment produced. -/
inductive StatRes where
  | ok (size : Int)
  | errNotExist
  | errPermission
  | errOther
deriving DecidableEq, Repr

/-- `err == nil` for a stat outcome. -/
def StatRes.isOk : StatRes → Bool
  | StatRes.ok _ => true
  | _ => false

/-- Parsed JSON documents (the value layer of `encoding/json`). -/
inductive Json where
  | null
  | bool (b : Bool)
  | num (n : Int)
  | str (s : String)
  | arr (items : List Json)
  | obj (fields : List (String × Json))

/-- `json.Marshal` of one `FileData` value: an object with the two fields
named by the struct tags of main.go lines 16-17, in declaration order. -/
def encodeFileData (fd : FileData) : Json :=
  Json.obj [("path", Json.str fd.path), ("size", Json.num fd.size)]

/-- `json.Marshal` of a `[]FileData` value: the array of the encoded
records, in order. -/
def encodeLedger (l : List FileData) : Json :=
  Json.arr (l.map encodeFileData)

/-- First field of the given name in an object's field list. -/
def lookupField (fields : List (String × Json)) (k : String) : Option Json :=
  match fields with
  | [] => none
  | (k2, v) :: rest => if k2 = k then some v else lookupField rest k

/-- `json.Unmarshal` of one array element into a `FileData` value: the
element must be an object whose `path` field is a string and whose `size`
field is an integer number; other fields are ignored, as `encoding/json`
ignores unknown fields. -/
def decodeFileData : Json → Option FileData
  | Json.obj fields =>
    match lookupField fields "path", lookupField fields "size" with
    | some (Json.str p), some (Json.num n) => some { path := p, size := n }
    | _, _ => none
  | _ => none

/-- Decoding every element of an array body; `json.Unmarshal` fails as a
whole when any element fails. -/
def decodeRecords : List Json → Option (List FileData)
  | [] => some []
  | j :: rest =>
    match decodeFileData j, decodeRecords rest with
    | some fd, some fds => some (fd :: fds)
    | _, _ => none

/-- `json.Unmarshal(data, &fileDataList)` at the document level: the
document must be an array and every element must decode. -/
def decodeLedger : Json → Option (List FileData)
  | Json.arr items => decodeRecords items
  | _ => none

/-- `processFile` (main.go lines 94-134) at the document level, for
executions in which the final `ioutil.WriteFile` succeeds (write failures
are modelled at the byte level by `processFileBytes`).

Inputs are the environment's answers: `pathStat` is `os.Stat(path)`
(line 96), `storStatOk` is `err == nil` for `os.Stat(storageLocation)`
(line 110), and `st` is the storage artifact's current content (`none`
when no artifact exists, `some doc` when it holds the document `doc`).
The result is the artifact's content after the call.

* stat failure on `path`: log and return, artifact untouched (lines 97-100);
* `storStatOk = false`: the read is skipped and `fileDataList` stays empty
  (lines 110, 120) — note the code takes this branch on any stat error,
  not only non-existence;
* `storStatOk = true`: the artifact is read and unmarshalled; a missing
  file or a document that does not decode makes the call return with the
  artifact untouched (lines 111-119);
* otherwise the new record is appended (line 123) and the whole list is
  re-marshalled and written back (lines 126-131). -/
def processFile (pathStat : StatRes) (path : String) (storStatOk : Bool)
    (st : Option Json) : Option Json :=
  match pathStat with
  | StatRes.ok size =>
    let fileData : FileData := { path := path, size := size }
    let base : Option (List FileData) :=
      if storStatOk then
        match st with
        | some doc => decodeLedger doc
        | none => none
      else some []
    match base with
    | none => st
    | some l => some (encodeLedger (l ++ [fileData]))
  | _ => st

/-- `processFile` run in the normal environment, where
`os.Stat(storageLocation)` succeeds exactly when the artifact exists. -/
def processFileN (pathStat : StatRes) (path : String) (st : Option Json) :
    Option Json :=
  processFile pathStat path st.isSome st

/-- One worker's loop (main.go lines 61-66): process the queued paths in
order, each call seeing the artifact state the previous call left. `stat`
is the environment's stat answer per path. -/
def runWorker (stat : String → StatRes) (queue : List String)
    (st : Option Json) : Option Json :=
  match queue with
  | [] => st
  | p :: rest => runWorker stat rest (processFileN (stat p) p st)

/-- The document round trip: decoding an encoded record gives it back. -/
theorem decodeFileData_encodeFileData (fd : FileData) :
    decodeFileData (encodeFileData fd) = some fd := by
  cases fd
  simp [decodeFileData, encodeFileData, lookupField]

/-- The document round trip for whole ledgers. -/
theorem decodeLedger_encodeLedger (l : List FileData) :
    decodeLedger (encodeLedger l) = some l := by
  induction l with
  | nil => rfl
  | cons fd rest ih =>
    simp only [encodeLedger, decodeLedger, List.map] at ih ⊢
    simp [decodeRecords, decodeFileData_encodeFileData fd, ih]

/-- C5: cold start — when no durable artifact exists at the
StorageLocation, `processFile` skips the read (the stat of the storage
location fails), leaves `fileDataList` empty, appends the record and
writes it; the first append produces a ledger of exactly one record. -/
theorem c5_cold_start_single_record (p : String) (sz : Int) :
    processFileN (StatRes.ok sz) p none
      = some (encodeLedger [{ path := p, size := sz }]) ∧
    decodeLedger (encodeLedger [{ path := p, size := sz }])
      = some [{ path := p, size := sz }] := by
  exact ⟨rfl, decodeLedger_encodeLedger _⟩

/-- C6: a failed stat on a notified path (file deleted, permission denied,
or any other stat failure) makes the worker log and skip that item: the
artifact is unchanged, and the remaining queued paths are processed exactly
as if the failing item were absent. -/
theorem c6_stat_failure_skips_item (stat : String → StatRes) (p : String)
    (hp : (stat p).isOk = false) (st : Option Json) (rest : List String) :
    processFileN (stat p) p st = st ∧
    runWorker stat (p :: rest) st = runWorker stat rest st := by
  have h1 : processFileN (stat p) p st = st := by
    cases hs : stat p with
    | ok sz => rw [hs] at hp; simp [StatRes.isOk] at hp
    | errNotExist => rfl
    | errPermission => rfl
    | errOther => rfl
  exact ⟨h1, by rw [runWorker, h1]⟩

/-- C6 witness: a queue whose first path stats as deleted; the artifact is
untouched by the failing item and the rest of the queue is processed. -/
theorem c6_stat_failure_skips_item_witness :
    processFileN ((fun _ => StatRes.errNotExist) "gone") "gone" none = none ∧
    runWorker (fun _ => StatRes.errNotExist) ["gone", "other"] none
      = runWorker (fun _ => StatRes.errNotExist) ["other"] none :=
  c6_stat_failure_skips_item (fun _ => StatRes.errNotExist) "gone" rfl none
    ["other"]

/-- C7: the ledger never deduplicates by path — two appends of records with
the same path and different sizes yield a ledger of two distinct entries,
not one updated entry. -/
theorem c7_no_dedup_by_path (p : String) (s1 s2 : Int) (hne : s1 ≠ s2) :
    processFileN (StatRes.ok s2) p (processFileN (StatRes.ok s1) p none)
      = some (encodeLedger [{ path := p, size := s1 },
          { path := p, size := s2 }]) ∧
    decodeLedger (encodeLedger [{ path := p, size := s1 },
        { path := p, size := s2 }])
      = some [{ path := p, size := s1 }, { path := p, size := s2 }] ∧
    ({ path := p, size := s1 } : FileData) ≠ { path := p, size := s2 } := by
  have h1 : processFileN (StatRes.ok s1) p none
      = some (encodeLedger [{ path := p, size := s1 }]) := rfl
  refine ⟨?_, decodeLedger_encodeLedger _, ?_⟩
  · rw [h1]
    show processFile (StatRes.ok s2) p true
        (some (encodeLedger [{ path := p, size := s1 }])) = _
    simp [processFile, decodeLedger_encodeLedger]
  · intro h
    exact hne (congrArg FileData.size h)

/-- C7 witness: two writes to the same file, sizes 1 then 2, leave two
entries in the ledger. -/
theorem c7_no_dedup_by_path_witness :
    processFileN (StatRes.ok 2) "f" (processFileN (StatRes.ok 1) "f" none)
      = some (encodeLedger [{ path := "f", size := 1 },
          { path := "f", size := 2 }]) ∧
    decodeLedger (encodeLedger [{ path := "f", size := 1 },
        { path := "f", size := 2 }])
      = some [{ path := "f", size := 1 }, { path := "f", size := 2 }] ∧
    ({ path := "f", size := 1 } : FileData) ≠ { path := "f", size := 2 } :=
  c7_no_dedup_by_path "f" 1 2 (by decide)

/-- C9: lossless round trip — serializing any ledger as the array-of-objects
document and deserializing it yields the identical ordered sequence of
records. -/
theorem c9_ledger_round_trip (l : List FileData) :
    decodeLedger (encodeLedger l) = some l :=
  decodeLedger_encodeLedger l

/-- C10 (implicit): when the existence check `os.Stat(storageLocation)`
fails for any reason other than non-existence — here, while the artifact
exists and holds a valid ledger `prior` — the code still takes the
`err != nil` branch, treats the ledger as empty, and overwrites the durable
artifact with a single-record ledger, discarding every previously appended
record. -/
theorem c10_stat_error_discards_ledger (p : String) (sz : Int) (doc : Json)
    (prior : List FileData) (hdoc : decodeLedger doc = some prior) :
    processFile (StatRes.ok sz) p false (some doc)
      = some (encodeLedger [{ path := p, size := sz }]) ∧
    decodeLedger (encodeLedger [{ path := p, size := sz }])
      = some [{ path := p, size := sz }] :=
  ⟨rfl, decodeLedger_encodeLedger _⟩

/-- C10 witness: an artifact holding one valid prior record is overwritten
with a one-record ledger containing only the new record when the stat of
the storage location fails transiently. -/
theorem c10_stat_error_discards_ledger_witness :
    processFile (StatRes.ok 1) "new" false
        (some (encodeLedger [{ path := "old", size := 7 }]))
      = some (encodeLedger [{ path := "new", size := 1 }]) ∧
    decodeLedger (encodeLedger [{ path := "new", size := 1 }])
      = some [{ path := "new", size := 1 }] :=
  c10_stat_error_discards_ledger "new" 1
    (encodeLedger [{ path := "old", size := 7 }])
    [{ path := "old", size := 7 }] (decodeLedger_encodeLedger _)

/-- Opening curly brace character. -/
def lbrace : Char := Char.ofNat 123

/-- Closing curly brace character. -/
def rbrace : Char := Char.ofNat 125

/-- The backslash character. -/
def backslash : Char := Char.ofNat 92

/-- Lowercase hexadecimal digit for a value below 16. -/
def hexDigit (n : Nat) : Char :=
  if n < 10 then Char.ofNat (48 + n) else Char.ofNat (87 + n % 16)

/-- How Go's `encoding/json` escapes one character inside a string literal:
quote, backslash, the named control escapes, `\u00xx` for the remaining
control characters, and HTML-safe escaping of the three characters
`<`, `>`, `&` plus U+2028/U+2029 (the encoder's default). -/
def escGoChar (c : Char) : List Char :=
  if c = '"' then [backslash, '"']
  else if c = backslash then [backslash, backslash]
  else if c = '\n' then [backslash, 'n']
  else if c = '\r' then [backslash, 'r']
  else if c = '\t' then [backslash, 't']
  else if c.toNat < 32 then
    [backslash, 'u', '0', '0', hexDigit (c.toNat / 16), hexDigit (c.toNat % 16)]
  else if c = '<' then [backslash, 'u', '0', '0', '3', 'c']
  else if c = '>' then [backslash, 'u', '0', '0', '3', 'e']
  else if c = '&' then [backslash, 'u', '0', '0', '2', '6']
  else if c.toNat = 8232 then [backslash, 'u', '2', '0', '2', '8']
  else if c.toNat = 8233 then [backslash, 'u', '2', '0', '2', '9']
  else [c]

/-- A Go JSON string literal, quotes included. -/
def escGoString (s : String) : String :=
  "\"" ++ String.mk (s.data.foldr (fun c acc => escGoChar c ++ acc) []) ++ "\""

/-- One array element of `json.MarshalIndent(fileDataList, "", "  ")`: the
object opens at the element position, its members are indented two levels,
its closing brace one level. -/
def serializeFileData (fd : FileData) : String :=
  String.singleton lbrace ++ "\n    \"path\": " ++ escGoString fd.path
    ++ ",\n    \"size\": " ++ toString fd.size ++ "\n  "
    ++ String.singleton rbrace

/-- The element lines of the array body, comma-separated, each indented one
level. -/
def serializeItems : List FileData → String
  | [] => ""
  | [fd] => "  " ++ serializeFileData fd
  | fd :: rest => "  " ++ serializeFileData fd ++ ",\n" ++ serializeItems rest

/-- `json.MarshalIndent(fileDataList, "", "  ")` (main.go line 126), byte
for byte. An empty slice marshals to `[]`; `processFile` always marshals a
non-empty slice (line 123 appended a record). -/
def serializeGo (l : List FileData) : String :=
  match l with
  | [] => "[]"
  | _ => "[\n" ++ serializeItems l ++ "\n]"

/-- JSON whitespace. -/
def isWsChar (c : Char) : Bool :=
  c = ' ' || c = '\n' || c = '\t' || c = '\r'

/-- Drop leading JSON whitespace. -/
def skipWs : List Char → List Char
  | [] => []
  | c :: cs => if isWsChar c then skipWs cs else c :: cs

/-- Value of one hexadecimal digit. -/
def hexValOf (c : Char) : Option Nat :=
  if '0' ≤ c ∧ c ≤ '9' then some (c.toNat - 48)
  else if 'a' ≤ c ∧ c ≤ 'f' then some (c.toNat - 87)
  else if 'A' ≤ c ∧ c ≤ 'F' then some (c.toNat - 55)
  else none

/-- One escape sequence after a backslash inside a string literal. -/
def parseEsc : List Char → Option (Char × List Char)
  | [] => none
  | e :: cs =>
    if e = '"' then some ('"', cs)
    else if e = backslash then some (backslash, cs)
    else if e = '/' then some ('/', cs)
    else if e = 'b' then some (Char.ofNat 8, cs)
    else if e = 'f' then some (Char.ofNat 12, cs)
    else if e = 'n' then some ('\n', cs)
    else if e = 'r' then some ('\r', cs)
    else if e = 't' then some ('\t', cs)
    else if e = 'u' then
      match cs with
      | a :: b :: c :: d :: cs2 =>
        match hexValOf a, hexValOf b, hexValOf c, hexValOf d with
        | some x, some y, some z, some w =>
          some (Char.ofNat (((x * 16 + y) * 16 + z) * 16 + w), cs2)
        | _, _, _, _ => none
      | _ => none
    else none

/-- String-literal body after the opening quote, up to and including the
closing quote. The fuel bounds recursion depth; callers supply more fuel
than the input has characters, so exhaustion never decides a parse. -/
def parseStrChars : Nat → List Char → Option (List Char × List Char)
  | 0, _ => none
  | _ + 1, [] => none
  | fuel + 1, c :: cs1 =>
    if c = '"' then some ([], cs1)
    else if c = backslash then
      match parseEsc cs1 with
      | some (ch, cs2) =>
        match parseStrChars fuel cs2 with
        | some (out, rest) => some (ch :: out, rest)
        | none => none
      | none => none
    else
      match parseStrChars fuel cs1 with
      | some (out, rest) => some (c :: out, rest)
      | none => none

/-- Decimal digits into a number, leftmost first. -/
def digitsToNat (acc : Nat) : List Char → Nat × List Char
  | [] => (acc, [])
  | c :: cs =>
    if c.isDigit then digitsToNat (acc * 10 + (c.toNat - 48)) cs
    else (acc, c :: cs)

/-- An integer JSON number (the artifact's `size` values are integers;
fractions and exponents are rejected, which makes the overall document
parse fail exactly as `Unmarshal` into `int64` would). -/
def parseNum : List Char → Option (Int × List Char)
  | [] => none
  | c :: cs =>
    if c = '-' then
      match cs with
      | d :: _ =>
        if d.isDigit then
          match digitsToNat 0 cs with
          | (n, rest) => some (-(n : Int), rest)
        else none
      | [] => none
    else if c.isDigit then
      match digitsToNat 0 (c :: cs) with
      | (n, rest) => some ((n : Int), rest)
    else none

mutual

/-- One JSON value, leading whitespace allowed. -/
def parseVal : Nat → List Char → Option (Json × List Char)
  | 0, _ => none
  | fuel + 1, cs =>
    match skipWs cs with
    | [] => none
    | c :: cs1 =>
      if c = '"' then
        match parseStrChars (fuel + 1) cs1 with
        | some (out, rest) => some (Json.str (String.mk out), rest)
        | none => none
      else if c = '[' then parseArrTail fuel cs1
      else if c = lbrace then parseObjTail fuel cs1
      else if c = 't' then
        match cs1 with
        | 'r' :: 'u' :: 'e' :: rest => some (Json.bool true, rest)
        | _ => none
      else if c = 'f' then
        match cs1 with
        | 'a' :: 'l' :: 's' :: 'e' :: rest => some (Json.bool false, rest)
        | _ => none
      else if c = 'n' then
        match cs1 with
        | 'u' :: 'l' :: 'l' :: rest => some (Json.null, rest)
        | _ => none
      else
        match parseNum (c :: cs1) with
        | some (n, rest) => some (Json.num n, rest)
        | none => none

/-- Array body after the opening bracket. -/
def parseArrTail : Nat → List Char → Option (Json × List Char)
  | 0, _ => none
  | fuel + 1, cs =>
    match skipWs cs with
    | [] => none
    | c :: cs1 =>
      if c = ']' then some (Json.arr [], cs1)
      else
        match parseVal fuel (c :: cs1) with
        | some (j, rest) =>
          match parseArrMore fuel rest with
          | some (js, rest2) => some (Json.arr (j :: js), rest2)
          | none => none
        | none => none

/-- Remaining array elements: a comma and a value, or the closing bracket. -/
def parseArrMore : Nat → List Char → Option (List Json × List Char)
  | 0, _ => none
  | fuel + 1, cs =>
    match skipWs cs with
    | [] => none
    | c :: cs1 =>
      if c = ']' then some ([], cs1)
      else if c = ',' then
        match parseVal fuel cs1 with
        | some (j, rest) =>
          match parseArrMore fuel rest with
          | some (js, rest2) => some (j :: js, rest2)
          | none => none
        | none => none
      else none

/-- One object member: a string key, a colon, a value. -/
def parseMember : Nat → List Char → Option ((String × Json) × List Char)
  | 0, _ => none
  | fuel + 1, cs =>
    match skipWs cs with
    | [] => none
    | c :: cs1 =>
      if c = '"' then
        match parseStrChars (fuel + 1) cs1 with
        | some (k, rest) =>
          match skipWs rest with
          | ':' :: rest2 =>
            match parseVal fuel rest2 with
            | some (v, rest3) => some ((String.mk k, v), rest3)
            | none => none
          | _ => none
        | none => none
      else none

/-- Object body after the opening brace. -/
def parseObjTail : Nat → List Char → Option (Json × List Char)
  | 0, _ => none
  | fuel + 1, cs =>
    match skipWs cs with
    | [] => none
    | c :: cs1 =>
      if c = rbrace then some (Json.obj [], cs1)
      else
        match parseMember fuel (c :: cs1) with
        | some (m, rest) =>
          match parseObjMore fuel rest with
          | some (ms, rest2) => some (Json.obj (m :: ms), rest2)
          | none => none
        | none => none

/-- Remaining object members: a comma and a member, or the closing brace. -/
def parseObjMore : Nat → List Char → Option (List (String × Json) × List Char)
  | 0, _ => none
  | fuel + 1, cs =>
    match skipWs cs with
    | [] => none
    | c :: cs1 =>
      if c = rbrace then some ([], cs1)
      else if c = ',' then
        match parseMember fuel cs1 with
        | some (m, rest) =>
          match parseObjMore fuel rest with
          | some (ms, rest2) => some (m :: ms, rest2)
          | none => none
        | none => none
      else none

end

/-- `json.Unmarshal(data, &fileDataList)` at the byte level: parse the
bytes as one JSON document followed only by whitespace, then decode the
document as a ledger. The fuel `2 * length + 8` exceeds the recursion any
input of that length can demand. -/
def parseLedgerBytes (s : String) : Option (List FileData) :=
  match parseVal (2 * s.length + 8) s.data with
  | some (j, rest) =>
    match skipWs rest with
    | [] => decodeLedger j
    | _ :: _ => none
  | none => none

/-- The first `k` bytes of a string. -/
def strTake (s : String) (k : Nat) : String :=
  String.mk (s.data.take k)

/-- Outcome of the `ioutil.WriteFile(storageLocation, data, 0644)` call of
main.go line 131. `WriteFile` opens the file with `O_TRUNC` and then writes
the bytes in place — there is no staging file and no rename — so a write
that stops after `k` bytes (disk full, crash) leaves the first `k` bytes of
the new data as the whole artifact. -/
inductive WriteRes where
  | ok
  | failAt (k : Nat)
deriving DecidableEq, Repr

/-- The artifact content `ioutil.WriteFile` leaves behind. -/
def writeFileResult (data : String) : WriteRes → String
  | WriteRes.ok => data
  | WriteRes.failAt k => strTake data k

/-- `processFile` (main.go lines 94-134) at the byte level: the artifact is
the file's bytes, `json.Unmarshal` is `parseLedgerBytes`, and the final
`ioutil.WriteFile` may stop after `k` bytes. The stat of the storage
location succeeds exactly when the artifact exists. -/
def processFileBytes (pathStat : StatRes) (path : String) (wr : WriteRes)
    (st : Option String) : Option String :=
  match pathStat with
  | StatRes.ok size =>
    let fileData : FileData := { path := path, size := size }
    let base : Option (List FileData) :=
      match st with
      | some bytes => parseLedgerBytes bytes
      | none => some []
    match base with
    | none => st
    | some l =>
      let data := serializeGo (l ++ [fileData])
      some (writeFileResult data wr)
  | _ => st

/-- C2 is refuted by the code: `processFile` persists the ledger with a
single in-place `ioutil.WriteFile` to the storage location — no staging
file, no rename. With a committed, parsable artifact holding one record,
an append whose write is interrupted after 3 bytes leaves the artifact as
the 3-byte prefix of the new serialization, which no longer parses: the
previously committed artifact is truncated and unparsable to the next
reader. -/
theorem c2_in_place_write_truncates :
    parseLedgerBytes (serializeGo [{ path := "a", size := 1 }])
      = some [{ path := "a", size := 1 }] ∧
    processFileBytes (StatRes.ok 2) "b" (WriteRes.failAt 3)
        (some (serializeGo [{ path := "a", size := 1 }]))
      = some (strTake
          (serializeGo [{ path := "a", size := 1 }, { path := "b", size := 2 }])
          3) ∧
    parseLedgerBytes (strTake
        (serializeGo [{ path := "a", size := 1 }, { path := "b", size := 2 }])
        3)
      = none := by
  refine ⟨by decide, by decide, by decide⟩

/-- C3 is refuted by the code on its write-failure half: a failed
`ioutil.WriteFile` (disk full at offset 0) does skip the record and the
worker continues, but it does not leave the ledger's prior valid state
unchanged — the `O_TRUNC` open has already emptied the artifact, so the
one previously committed record is destroyed and the artifact no longer
parses. -/
theorem c3_write_failure_destroys_prior :
    parseLedgerBytes (serializeGo [{ path := "a", size := 1 }])
      = some [{ path := "a", size := 1 }] ∧
    processFileBytes (StatRes.ok 5) "c" (WriteRes.failAt 0)
        (some (serializeGo [{ path := "a", size := 1 }]))
      = some "" ∧
    parseLedgerBytes "" = none := by
  refine ⟨by decide, by decide, by decide⟩

/-- Phase of one in-flight `processFile` call with respect to the shared
storage artifact: not yet started; past the read of the existing data
(lines 108-120), holding the snapshot it read; or past the write
(line 131). -/
inductive APhase where
  | start
  | readDone (snap : List FileData)
  | done
deriving DecidableEq, Repr

/-- Shared state of several workers concurrently appending to the one
storage location: the ledger the artifact currently holds, and each
worker's record and phase. -/
structure ConcState where
  ledger : List FileData
  procs : List (FileData × APhase)
deriving DecidableEq, Repr

/-- Interleaving semantics of concurrent `processFile` calls. The code
takes no lock around the read-current-ledger → append → write-full-ledger
sequence (main.go lines 108-131), so between any worker's read and its
write, any other worker may read or write:

* `read i` — worker `i` reads the artifact and unmarshals the current
  ledger into its local `fileDataList` (lines 108-120);
* `write i` — worker `i` appends its record to its snapshot (line 123)
  and writes that full list over the artifact (lines 126-131). -/
inductive CStep : ConcState → ConcState → Prop where
  | read (s : ConcState) (i : Nat) (r : FileData)
      (h : s.procs.get? i = some (r, APhase.start)) :
      CStep s ⟨s.ledger, s.procs.set i (r, APhase.readDone s.ledger)⟩
  | write (s : ConcState) (i : Nat) (r : FileData) (snap : List FileData)
      (h : s.procs.get? i = some (r, APhase.readDone snap)) :
      CStep s ⟨snap ++ [r], s.procs.set i (r, APhase.done)⟩

/-- C1 is refuted by the code: with two concurrent appends against an empty
store, the interleaving read A → read B → write A → write B is an execution
of the unsynchronized `processFile` (both workers read the empty ledger
before either writes), and it completes both appends yet leaves a ledger of
one record, not two — a lost update. -/
theorem c1_lost_update_interleaving :
    Relation.ReflTransGen CStep
      ⟨[], [({ path := "a", size := 1 }, APhase.start),
            ({ path := "b", size := 2 }, APhase.start)]⟩
      ⟨[{ path := "b", size := 2 }],
       [({ path := "a", size := 1 }, APhase.done),
        ({ path := "b", size := 2 }, APhase.done)]⟩ ∧
    ([{ path := "b", size := 2 }] : List FileData).length = 1 := by
  constructor
  · have h1 := CStep.read
      ⟨[], [({ path := "a", size := 1 }, APhase.start),
            ({ path := "b", size := 2 }, APhase.start)]⟩
      0 { path := "a", size := 1 } rfl
    have h2 := CStep.read
      ⟨[], [({ path := "a", size := 1 }, APhase.readDone []),
            ({ path := "b", size := 2 }, APhase.start)]⟩
      1 { path := "b", size := 2 } rfl
    have h3 := CStep.write
      ⟨[], [({ path := "a", size := 1 }, APhase.readDone []),
            ({ path := "b", size := 2 }, APhase.readDone [])]⟩
      0 { path := "a", size := 1 } [] rfl
    have h4 := CStep.write
      ⟨[{ path := "a", size := 1 }],
       [({ path := "a", size := 1 }, APhase.done),
        ({ path := "b", size := 2 }, APhase.readDone [])]⟩
      1 { path := "b", size := 2 } [] rfl
    exact Relation.ReflTransGen.head h1 (Relation.ReflTransGen.head h2
      (Relation.ReflTransGen.head h3 (Relation.ReflTransGen.single h4)))
  · rfl

/-- Shutdown-relevant state of `main` (main.go lines 54-92) after the
EventSource has closed: the items still buffered in `fileChan`, whether
`close(fileChan)` has executed, how many workers have not yet returned
(the WaitGroup counter), and whether `main` has returned (process exit
with code 0). -/
structure ShutState where
  queue : List String
  chanClosed : Bool
  activeWorkers : Nat
  mainDone : Bool
deriving DecidableEq, Repr

/-- The state at the point the EventSource closes: `n` workers running
(line 59), the channel open, `main` blocked in `wg.Wait()` (line 90). -/
def initShut (n : Nat) (q : List String) : ShutState :=
  { queue := q, chanClosed := false, activeWorkers := n, mainDone := false }

/-- Transitions of the shutdown protocol exactly as the code orders them:

* `workerTake` — a worker receives a buffered path and processes it
  (lines 63-65);
* `workerExit` — a worker's `for path := range fileChan` loop ends, which
  Go allows only once the channel is closed and drained, and `wg.Done`
  runs (lines 62-66);
* `mainClose` — `main` executes `close(fileChan)` (line 91), which it
  reaches only after `wg.Wait()` (line 90) returned, i.e. only with the
  WaitGroup counter at zero;
* `mainExit` — `main` returns after line 91, the clean exit with code 0. -/
inductive ShutStep : ShutState → ShutState → Prop where
  | workerTake (s : ShutState) (p : String) (rest : List String)
      (h : s.queue = p :: rest) :
      ShutStep s ⟨rest, s.chanClosed, s.activeWorkers, s.mainDone⟩
  | workerExit (s : ShutState) (k : Nat)
      (hC : s.chanClosed = true) (hQ : s.queue = [])
      (hW : s.activeWorkers = k + 1) :
      ShutStep s ⟨[], true, k, s.mainDone⟩
  | mainClose (s : ShutState)
      (hW : s.activeWorkers = 0) (hC : s.chanClosed = false) :
      ShutStep s ⟨s.queue, true, 0, s.mainDone⟩
  | mainExit (s : ShutState) (hC : s.chanClosed = true) :
      ShutStep s ⟨s.queue, true, s.activeWorkers, true⟩

/-- C4 is refuted by the code: with at least one worker, no execution of
the shutdown protocol ever closes the channel, retires a worker, or
reaches the clean exit — `close(fileChan)` runs only after `wg.Wait()`,
but `wg.Wait()` returns only after every worker's `range fileChan` loop
ends, which requires the channel to be closed first. The process therefore
never exits with code 0. -/
theorem c4_clean_shutdown_unreachable (n : Nat) (hn : 1 ≤ n)
    (q : List String) (s : ShutState)
    (h : Relation.ReflTransGen ShutStep (initShut n q) s) :
    s.chanClosed = false ∧ s.activeWorkers = n ∧ s.mainDone = false := by
  induction h with
  | refl => exact ⟨rfl, rfl, rfl⟩
  | tail _ hstep ih =>
    obtain ⟨hC, hW, hM⟩ := ih
    cases hstep with
    | workerTake p rest hq => exact ⟨hC, hW, hM⟩
    | workerExit k hC2 hQ hW2 => rw [hC2] at hC; exact absurd hC (by simp)
    | mainClose hW2 hC2 =>
      rw [hW] at hW2; exact absurd hn (by rw [hW2]; simp)
    | mainExit hC2 => rw [hC2] at hC; exact absurd hC (by simp)

/-- C4 witness: one worker, empty queue, zero steps taken — the channel is
open, the worker alive, and the process has not exited. -/
theorem c4_clean_shutdown_unreachable_witness :
    (initShut 1 []).chanClosed = false ∧
    (initShut 1 []).activeWorkers = 1 ∧
    (initShut 1 []).mainDone = false :=
  c4_clean_shutdown_unreachable 1 (by decide) [] (initShut 1 [])
    Relation.ReflTransGen.refl

/-- An fsnotify event: a path and an operation bitmask
(`fsnotify.Create = 1`, `fsnotify.Write = 2`, `Remove = 4`, `Rename = 8`,
`Chmod = 16`; an event may carry several bits). -/
structure FsEvent where
  name : String
  op : Nat
deriving DecidableEq, Repr

/-- `fsnotify.Create`. -/
def opCreate : Nat := 1

/-- `fsnotify.Write`. -/
def opWrite : Nat := 2

/-- The dispatcher's filter (main.go line 77):
`event.Op&fsnotify.Create == fsnotify.Create ||
 event.Op&fsnotify.Write == fsnotify.Write`. -/
def dispatchMatch (e : FsEvent) : Bool :=
  (e.op &&& opCreate == opCreate) || (e.op &&& opWrite == opWrite)

/-- The spec's ChangeEvent kinds. -/
inductive EventKind where
  | Created
  | Modified
  | Other
deriving DecidableEq, Repr

/-- Modelled from the spec: the ChangeEvent kind of a raw notification
(`{path: string, kind: enum{Created, Modified, Other}}`) — an event whose
operation includes creation is `Created`, one that includes a write is
`Modified`, anything else is `Other`. -/
def specKindOf (e : FsEvent) : EventKind :=
  if e.op &&& opCreate == opCreate then EventKind.Created
  else if e.op &&& opWrite == opWrite then EventKind.Modified
  else EventKind.Other

/-- The bounded work queue: `fileChan`'s capacity and buffered contents. -/
structure BQueue where
  cap : Nat
  items : List String
deriving DecidableEq, Repr

/-- `fileChan := make(chan string, config.ConcurrencyLevel)`
(main.go line 55): an empty queue of capacity ConcurrencyLevel. -/
def mkFileChan (c : Config) : BQueue :=
  { cap := c.ConcurrencyLevel, items := [] }

/-- One step of the dispatcher goroutine (main.go lines 70-87) on the pair
(pending events, queue):

* `enq` — the event matches the filter and the channel has buffer space:
  `fileChan <- event.Name` appends the path (line 78). When the buffer is
  full no `enq` step exists: the send blocks the dispatcher, it does not
  drop the event.
* `skip` — the event does not match the filter: the loop continues with
  the next event, the queue untouched. -/
inductive DispStep : List FsEvent × BQueue → List FsEvent × BQueue → Prop where
  | enq (e : FsEvent) (es : List FsEvent) (q : BQueue)
      (hm : dispatchMatch e = true) (hlt : q.items.length < q.cap) :
      DispStep (e :: es, q) (es, ⟨q.cap, q.items ++ [e.name]⟩)
  | skip (e : FsEvent) (es : List FsEvent) (q : BQueue)
      (hm : dispatchMatch e = false) :
      DispStep (e :: es, q) (es, q)

/-- C8: the dispatcher enqueues an event's path exactly when the event's
kind is Created or Modified; the work queue is created with capacity
exactly ConcurrencyLevel; when the queue is full the matching event causes
no transition at all (the send blocks, nothing is dropped); and when there
is space the matching event's path — and nothing else — is appended. -/
theorem c8_dispatcher_filter_capacity_backpressure (c : Config) (e : FsEvent)
    (q : BQueue) (es : List FsEvent) :
    (dispatchMatch e = true ↔
        (specKindOf e = EventKind.Created ∨ specKindOf e = EventKind.Modified)) ∧
    (mkFileChan c).cap = c.ConcurrencyLevel ∧
    (q.items.length = q.cap → dispatchMatch e = true →
      ∀ s2, ¬ DispStep (e :: es, q) s2) ∧
    (dispatchMatch e = true → q.items.length < q.cap →
      DispStep (e :: es, q) (es, ⟨q.cap, q.items ++ [e.name]⟩)) := by
  refine ⟨?_, rfl, ?_, fun hm hlt => DispStep.enq e es q hm hlt⟩
  · unfold dispatchMatch specKindOf
    by_cases h1 : e.op &&& opCreate == opCreate
    · simp [h1]
    · by_cases h2 : e.op &&& opWrite == opWrite
      · simp [h1, h2]
      · simp [h1, h2]
  · intro hfull hm s2 hstep
    cases hstep with
    | enq e es q hm2 hlt => rw [hfull] at hlt; exact absurd hlt (by simp)
    | skip e es q hm2 => rw [hm] at hm2; exact absurd hm2 (by simp)
